import Mathlib

/-!
Shallow embedding of the `stat` reporting engine of the drive repository
(source file `stat.go`, package `drive`).

The embedding models the code in `stat.go` directly.  Collaborators that
live outside that file (the remote client, the `File` record, string helpers
such as `sepJoin`, `reComposeError`, `copyErrStatusCode`, `rootLike`,
`g.sort`, `prettyBytes`, `filepath.Clean`) are either abstracted as fields
of an `Env` record or modelled from the specification; each such definition
says so in its doc comment.

Output is modelled as the ordered list of strings passed to the log sink:
each `logf` call in the source appends exactly one element (the fully
formatted string) to the log.  Go's `%-Nv` verb (left-justify, i.e. pad on
the right, to a minimum width) is `goPadRight`, and `%Ns` (right-justify,
i.e. pad on the left) is `goPadLeft`.
-/

namespace Drive

/-- Models Go `fmt` padding without the `-` flag (`%32s`): right-justified,
padded on the LEFT with spaces up to the minimum width `w`. -/
def goPadLeft (s : String) (w : Nat) : String :=
  String.mk (List.replicate (w - s.length) ' ') ++ s

/-- Models Go `fmt` padding with the `-` flag (`%-60v`): left-justified,
padded on the RIGHT with spaces up to the minimum width `w`. -/
def goPadRight (s : String) (w : Nat) : String :=
  s ++ String.mk (List.replicate (w - s.length) ' ')

/-- Models Go `strings.TrimPrefix s pre`: removes one leading occurrence of
`pre` from `s` when present, otherwise returns `s` unchanged (computed on
the character list so that it evaluates in the kernel). -/
def goTrimLeading (s pre : String) : String :=
  if pre.data.isPrefixOf s.data then String.mk (s.data.drop pre.data.length) else s

/-- Modelled from the spec: `sepJoin` (defined outside `src/`) joins the
owner-name list with the given separator. -/
def sepJoin (sep : String) (l : List String) : String :=
  String.intercalate sep l

/-- Models Go `fmt.Sprintf "%q"` applied to a description string; escaping of
special characters inside the description is elided (no claim depends on it):
the value is surrounded by double quotes. -/
def goQuote (s : String) : String :=
  "\"" ++ s ++ "\""

/-- Modelled from the spec: the label set of an Object
(`{starred, viewed, trashed, restricted}`, §3); the `Labels` record of the
Google Drive client is not under `src/`. -/
structure Labels where
  starred : Bool
  viewed : Bool
  trashed : Bool
  restricted : Bool
deriving Repr, DecidableEq

/-- Modelled from the spec: the `File` record (an Object of §3) is defined
outside `src/`; the fields are exactly those read by `stat.go`.  Numeric
fields are `Int` and timestamps opaque strings — only their rendered text
matters to the claims. -/
structure File where
  name : String
  id : String
  size : Int
  quotaBytesUsed : Int
  version : Int
  mimeType : String
  etag : String
  modTime : String
  lastViewedByMeTime : String
  shared : Bool
  ownerNames : List String
  lastModifyingUsername : String
  description : String
  originalFilename : String
  isDir : Bool
  md5Checksum : String
  copyable : Bool
  labels : Option Labels
deriving Repr, DecidableEq

/-- Modelled from the spec: a backend error carrying a message and a status
code (§7 keeps a single retained status code per aggregation). -/
structure SourceError where
  msg : String
  code : Int
deriving Repr, DecidableEq

/-- A permission entry (`drive.Permission`) as read by `stat.go`: display
name, contact address, role and account type.  The Go field `Type` is named
`typ` because `type` is reserved in Lean. -/
structure Permission where
  name : String
  emailAddress : String
  role : String
  typ : String
deriving Repr, DecidableEq

/-- One delivery observed by the `select` loop of `stat` (lines 203-217 of
`stat.go`): either an object received on the data channel (`filesChan`) or a
value received on the error channel (`errsChan`, which carries error-or-nil).
A list of `StreamEvent` linearizes the order in which the consumer's
`select` receives; the end of the list is the point at which the data
channel is observed closed. -/
inductive StreamEvent where
  | data (f : File) : StreamEvent
  | errs (e : Option SourceError) : StreamEvent
deriving Repr, DecidableEq

/-- The options of `g.opts` read by `stat.go`: sources, `Md5sum`,
`CsvOutput`, `Depth`, `Hidden` and `Path`. -/
structure Options where
  sources : List String
  md5sum : Bool
  csvOutput : Bool
  depth : Int
  hidden : Bool
  path : String

/-- External collaborators of `stat.go`, abstracted as functions:
`listPermissions` returns the permission list together with an optional
error (the Go call returns both and the code ranges over the list even on
error); `findByParentId` returns the linearized deliveries of the
PageStream opened for a parent id; `prettyBytes` and `pathClean`
(`filepath.Clean`) are out-of-scope formatting helpers; `rootLike` is
modelled from the spec (`rootPathIsTrivial`: whether the configured root
path is the store's root). -/
structure Env where
  listPermissions : String → List Permission × Option SourceError
  findByParentId : String → Bool → List StreamEvent
  prettyBytes : Int → String
  pathClean : String → String
  rootLike : String → Bool

/-- The mutable state threaded through a traversal: the process-wide
`firstLine` flag guarding the CSV header, and the ordered log of strings
emitted through the log sink. -/
structure StatState where
  firstLine : Bool
  log : List String
deriving Repr, DecidableEq

/-- `prettyPermission` of `stat.go` (lines 70-82): the verbose block for one
permission entry, one list element per `logf` call. -/
def prettyPermission (perm : Permission) : List String :=
  ["\n*\nName: " ++ perm.name ++ " <" ++ perm.emailAddress ++ ">\n",
   goPadRight "Role" 20 ++ " " ++ goPadRight perm.role 30 ++ "\n",
   goPadRight "AccountType" 20 ++ " " ++ goPadRight perm.typ 30 ++ "\n",
   "*\n"]

/-- `prettyFilePermission` of `stat.go` (lines 84-99): the CSV row for one
permission entry, one list element per `logf` call.  Note the two tab
characters at the end of the first chunk (`\t\t` in the Go format string)
and the `%-Nv` right-padding. -/
def prettyFilePermission (perm : Permission) (file : File) : List String :=
  let dirType := if file.isDir then "folder" else "file"
  [goPadRight file.name 60 ++ "," ++ goPadRight dirType 10 ++ "," ++
     goPadRight perm.name 25 ++ "," ++ goPadRight perm.emailAddress 25 ++ "\t\t",
   "," ++ goPadRight perm.role 25,
   "," ++ goPadRight perm.typ 25,
   "\n"]

/-- The ordered key/value list built by `prettyFileStat` (lines 109-148):
always-present attributes, then the conditional entries (description,
original name, checksum and copyable for non-containers, label flags). -/
def prettyFileStatKV (env : Env) (file : File) : List (String × String) :=
  let dirType := if file.isDir then "folder" else "file"
  [("Filename", file.name),
   ("FileId", file.id),
   ("Bytes", toString file.size),
   ("Size", env.prettyBytes file.size),
   ("QuotaBytesUsed", toString file.quotaBytesUsed),
   ("DirType", dirType),
   ("VersionNumber", toString file.version),
   ("MimeType", file.mimeType),
   ("Etag", file.etag),
   ("ModTime", file.modTime),
   ("LastViewedByMe", file.lastViewedByMeTime),
   ("Shared", toString file.shared),
   ("Owners", sepJoin " & " file.ownerNames),
   ("LastModifyingUsername", file.lastModifyingUsername)]
  ++ (if file.description ≠ "" then [("Description", goQuote file.description)] else [])
  ++ (if file.name ≠ file.originalFilename then [("OriginalFilename", file.originalFilename)] else [])
  ++ (if !file.isDir then
        [("Md5Checksum", file.md5Checksum), ("Copyable", toString file.copyable)]
      else [])
  ++ (match file.labels with
      | some l =>
        [("Starred", toString l.starred),
         ("Viewed", toString l.viewed),
         ("Trashed", toString l.trashed),
         ("ViewersCanDownload", toString l.restricted)]
      | none => [])

/-- `prettyFileStat` of `stat.go` (lines 101-153): the highlighted path
header (`\033[92m...\033[00m`) followed by one `%-25s %-30v` line per
key/value pair. -/
def prettyFileStat (env : Env) (relToRootPath : String) (file : File) : List String :=
  ("\n\x1b[92m" ++ relToRootPath ++ "\x1b[00m\n") ::
  (prettyFileStatKV env file).map (fun kv => goPadRight kv.1 25 ++ " " ++ goPadRight kv.2 30 ++ "\n")

/-- The CSV header row emitted once per process (line 166 of `stat.go`). -/
def csvHeaderLine : String :=
  "File Name, Type, Name, Email, Role, AccountType\n"

/-- The consumer loop of `stat` over the PageStream (lines 203-217): a nil
on the error channel is a no-op, a non-nil error returns immediately, a data
delivery is appended to the collected children, and the end of the event
list (the data channel observed closed) returns the collected children. -/
def drainPages : List StreamEvent → List File → Except SourceError (List File)
  | [], acc => Except.ok acc
  | StreamEvent.data f :: rest, acc => drainPages rest (acc ++ [f])
  | StreamEvent.errs none :: rest, acc => drainPages rest acc
  | StreamEvent.errs (some e) :: _, _ => Except.error e

/-- The comparison of the spec-modelled child sort: checksum value first,
name as the secondary tie-break. -/
def md5NameLe (a b : File) : Bool :=
  decide (a.md5Checksum < b.md5Checksum) ||
  (a.md5Checksum == b.md5Checksum && decide (a.name ≤ b.name))

/-- Modelled from the spec: `g.sort(remoteChildren, Md5Key, NameKey)`
(defined outside `src/`) sorts the collected children by checksum value
first and name second, stably (§4.1). -/
def sortByMd5Name (l : List File) : List File :=
  l.mergeSort md5NameLe

/-- The rendering part of `stat` (lines 158-183 of `stat.go`), before the
depth test: the checksum line in md5 mode, otherwise the permission fetch
followed by the CSV rows (with the one-shot header) or the verbose block.
The second component is the early-return error (`permErr` surfaced in
verbose mode); `none` means the function falls through to the depth test. -/
def statRender (env : Env) (opts : Options) (relToRootPath : String) (file : File)
    (st : StatState) : StatState × Option SourceError :=
  if opts.md5sum then
    if file.md5Checksum ≠ "" then
      ({ st with log := st.log ++
          [goPadLeft file.md5Checksum 32 ++ "  " ++ goTrimLeading relToRootPath "/" ++ "\n"] },
       none)
    else (st, none)
  else
    let perms := (env.listPermissions file.id).1
    let permErr := (env.listPermissions file.id).2
    if opts.csvOutput then
      let st1 := if st.firstLine then
          { firstLine := false, log := st.log ++ [csvHeaderLine] }
        else st
      ({ st1 with log := st1.log ++ (perms.map (fun p => prettyFilePermission p file)).flatten },
       none)
    else
      let st1 := { st with log := st.log ++ prettyFileStat env relToRootPath file }
      match permErr with
      | some e => (st1, some e)
      | none =>
        ({ st1 with log := st1.log ++ (perms.map prettyPermission).flatten }, none)

/-- `stat` of `stat.go` (lines 157-228): render the object, stop at depth 0
or for non-containers, otherwise decrement a non-negative budget, drain the
PageStream of children, sort them in md5 mode, and recurse sequentially
into each child with the cleaned joined path, discarding each child's
returned error (line 224 ignores the result).  `fuel` bounds the recursion
depth of the embedding (the Go recursion is bounded by the height of the
remote tree); when it runs out the remaining recursion is skipped. -/
def stat (env : Env) (opts : Options) :
    Nat → String → File → Int → StatState → StatState × Except SourceError Unit
  | fuel, relToRootPath, file, depth, st =>
    match statRender env opts relToRootPath file st with
    | (st1, some e) => (st1, Except.error e)
    | (st1, none) =>
      if depth = 0 then (st1, Except.ok ())
      else if file.isDir = false then (st1, Except.ok ())
      else
        let depth1 : Int := if depth ≥ 1 then depth - 1 else depth
        match drainPages (env.findByParentId file.id opts.hidden) [] with
        | Except.error e => (st1, Except.error e)
        | Except.ok remoteChildren =>
          let children := if opts.md5sum then sortByMd5Name remoteChildren else remoteChildren
          match fuel with
          | 0 => (st1, Except.ok ())
          | fuel1 + 1 =>
            (children.foldl (fun acc child =>
              (stat env opts fuel1 (env.pathClean (relToRootPath ++ "/" ++ child.name))
                child depth1 acc).1) st1,
             Except.ok ())

/-- Modelled from the spec: the aggregated error of §7 — the ordered list of
per-source failure messages (none discarded, newline-terminated by
construction) plus the single retained status code. -/
structure AggErr where
  msgs : List String
  code : Int
deriving Repr, DecidableEq

/-- Modelled from the spec: `reComposeError` (defined outside `src/`)
appends one failure message to the aggregate, discarding none (§7:
"concatenates all individual messages ... rather than discarding earlier
ones"). -/
def reComposeError (err : Option AggErr) (msg : String) : Option AggErr :=
  match err with
  | none => some { msgs := [msg], code := 0 }
  | some e => some { e with msgs := e.msgs ++ [msg] }

/-- Modelled from the spec: `copyErrStatusCode` (defined outside `src/`)
overwrites the aggregate's retained status code with the code of the most
recent failure (§7: "last-write-wins in the reference"). -/
def copyErrStatusCode (err : Option AggErr) (fErr : SourceError) : Option AggErr :=
  err.map (fun e => { e with code := fErr.code })

/-- The failure message format of `statfn` (lines 44 and 60):
`fmt.Sprintf("%s: %s err: %v\n", fname, src, fErr)`. -/
def statMsg (fname src : String) (e : SourceError) : String :=
  fname ++ ": " ++ src ++ " err: " ++ e.msg ++ "\n"

/-- The loop body of `statfn` (lines 41-65), written as recursion over the
source list: resolve each source; on resolution failure record the message
and continue; in md5 mode replace the target path by the resolved name
(or by the empty string for a container at a root-like configured path);
call `stat`; on failure record the message (with the possibly replaced
source string, as the Go code reassigns `src`) and continue. -/
def statfnGo (env : Env) (opts : Options) (fname : String)
    (fn : String → Except SourceError File) (fuel : Nat) :
    List String → StatState → Option AggErr → StatState × Option AggErr
  | [], st, err => (st, err)
  | src :: rest, st, err =>
    match fn src with
    | Except.error fErr =>
      statfnGo env opts fname fn fuel rest st
        (copyErrStatusCode (reComposeError err (statMsg fname src fErr)) fErr)
    | Except.ok f =>
      let src1 := if opts.md5sum then
          (if f.isDir && env.rootLike opts.path then "" else f.name)
        else src
      match stat env opts fuel src1 f opts.depth st with
      | (st1, Except.error fErr) =>
        statfnGo env opts fname fn fuel rest st1
          (copyErrStatusCode (reComposeError err (statMsg fname src1 fErr)) fErr)
      | (st1, Except.ok _) =>
        statfnGo env opts fname fn fuel rest st1 err

/-- `statfn` of `stat.go` (lines 39-68): run the loop over `opts.sources`
starting from a nil accumulated error. -/
def statfn (env : Env) (opts : Options) (fname : String)
    (fn : String → Except SourceError File) (fuel : Nat) (st : StatState) :
    StatState × Option AggErr :=
  statfnGo env opts fname fn fuel opts.sources st none

/-! ### Concrete fixtures used by witnesses and counterexamples -/

/-- A concrete non-container object with checksum `deadbeef`. -/
def fileLeaf : File :=
  { name := "b", id := "idb", size := 4, quotaBytesUsed := 4, version := 1,
    mimeType := "text/plain", etag := "e", modTime := "t1", lastViewedByMeTime := "t2",
    shared := false, ownerNames := ["o"], lastModifyingUsername := "o",
    description := "", originalFilename := "b", isDir := false,
    md5Checksum := "deadbeef", copyable := true, labels := none }

/-- A concrete container object (no checksum, per the data-model invariant). -/
def fileDir : File :=
  { fileLeaf with
    name := "a", id := "ida", originalFilename := "a",
    isDir := true, md5Checksum := "", copyable := false }

/-- A concrete environment: no permissions, one child (`fileLeaf`) delivered
on the data channel, identity path cleaning, nothing root-like. -/
def envNoPerm : Env :=
  { listPermissions := fun _ => ([], none),
    findByParentId := fun _ _ => [StreamEvent.data fileLeaf],
    prettyBytes := fun _ => "4B",
    pathClean := fun s => s,
    rootLike := fun _ => false }

/-- A concrete environment whose PageStream delivers a nil on the error
channel, one child, then a non-nil error. -/
def envErrStream : Env :=
  { envNoPerm with
    findByParentId := fun _ _ =>
      [StreamEvent.errs none, StreamEvent.data fileLeaf,
       StreamEvent.errs (some { msg := "boom", code := 500 })] }

/-- A concrete sub-container used as a failing child. -/
def fileSubDir : File :=
  { fileDir with
    name := "c", id := "idc", originalFilename := "c" }

/-- A concrete environment where the container `ida` lists one child
container `idc`, and every other listing (in particular the child's own
expansion) errors out. -/
def envChildFail : Env :=
  { envNoPerm with
    findByParentId := fun pid _ =>
      if pid = "ida" then [StreamEvent.data fileSubDir]
      else [StreamEvent.errs (some { msg := "boom", code := 500 })] }

/-- A concrete environment whose permission fetch fails. -/
def envPermFail : Env :=
  { envNoPerm with
    listPermissions := fun _ => ([], some { msg := "perm fetch failed", code := 500 }) }

/-- Concrete md5 (checksum) mode options. -/
def optsMd5 : Options :=
  { sources := ["a"], md5sum := true, csvOutput := false, depth := 1,
    hidden := false, path := "/x" }

/-- Concrete verbose mode options. -/
def optsVerbose : Options :=
  { sources := ["a"], md5sum := false, csvOutput := false, depth := 1,
    hidden := false, path := "/x" }

/-- Concrete CSV mode options. -/
def optsCsv : Options :=
  { sources := ["a"], md5sum := false, csvOutput := true, depth := 1,
    hidden := false, path := "/x" }

/-! ### Infrastructure lemmas -/

/-- The early-return error of the rendering step depends only on the mode
and the permission fetch: `none` in md5 and CSV modes, the permission-fetch
error in verbose mode. -/
theorem statRender_snd (env : Env) (opts : Options) (rel : String) (file : File)
    (st : StatState) :
    (statRender env opts rel file st).2 =
      if opts.md5sum then none
      else if opts.csvOutput then none
      else (env.listPermissions file.id).2 := by
  unfold statRender
  by_cases hm : opts.md5sum <;> by_cases hc : opts.csvOutput <;>
    simp [hm, hc] <;> (try split) <;> simp_all

/-- The rendering step never changes `firstLine` from `false` to `true`; in
CSV mode it is `false` afterwards. -/
theorem statRender_firstLine_csv (env : Env) (opts : Options) (rel : String)
    (file : File) (st : StatState) (hm : opts.md5sum = false) (hc : opts.csvOutput = true) :
    ((statRender env opts rel file st).1).firstLine = false := by
  unfold statRender
  simp [hm, hc]
  split <;> simp_all

/-! ### Claims -/

/-- Claim C1: when `stat` expands a container, the consumer drains the
PageStream until the data channel is observed closed; a nil delivered on the
error channel is a no-op and consumption continues; a non-nil error is
returned immediately from `stat`, so none of the already-collected children
are rendered or recursed into (the log ends exactly where the object's own
rendering ended and the result is the stream error). -/
theorem c1_pageStreamConsumption (env : Env) (opts : Options) (fuel : Nat)
    (rel : String) (file : File) (depth : Int) (st : StatState) (e : SourceError)
    (rest : List StreamEvent) (acc : List File)
    (hdir : file.isDir = true) (hdepth : depth ≠ 0)
    (hrender : (statRender env opts rel file st).2 = none)
    (hdrain : drainPages (env.findByParentId file.id opts.hidden) [] = Except.error e) :
    drainPages (StreamEvent.errs (some e) :: rest) acc = Except.error e ∧
    drainPages (StreamEvent.errs none :: rest) acc = drainPages rest acc ∧
    stat env opts fuel rel file depth st =
      ((statRender env opts rel file st).1, Except.error e) := by
  refine ⟨rfl, rfl, ?_⟩
  rcases hsr : statRender env opts rel file st with ⟨st1, r2⟩
  rw [hsr] at hrender
  have hr2 : r2 = none := hrender
  subst hr2
  unfold stat
  rw [hsr]
  simp [hdepth, hdir, hdrain]

/-- Witness for C1 at a concrete environment whose stream delivers a nil, a
child, then the error `boom`. -/
theorem c1_witness :
    drainPages (StreamEvent.errs (some { msg := "boom", code := 500 }) :: []) [] =
      Except.error { msg := "boom", code := 500 } ∧
    drainPages (StreamEvent.errs none :: []) [] = drainPages [] [] ∧
    stat envErrStream optsMd5 1 "a" fileDir 1 { firstLine := true, log := [] } =
      ((statRender envErrStream optsMd5 "a" fileDir { firstLine := true, log := [] }).1,
       Except.error { msg := "boom", code := 500 }) :=
  c1_pageStreamConsumption envErrStream optsMd5 1 "a" fileDir 1
    { firstLine := true, log := [] } { msg := "boom", code := 500 } [] []
    rfl (by decide) rfl rfl

/-- Claim C4: an error returned by a recursive child `stat` call is never
propagated upward: whenever the PageStream drains successfully, the parent
call returns `Except.ok ()` for every fuel value (whatever the children's
recursions do in the arbitrary environment `env`), and the sibling loop is a
fold that visits every child in turn, keeping only each child's state and
discarding its returned error. -/
theorem c4_childErrorsNotPropagated (env : Env) (opts : Options) (fuel : Nat)
    (rel : String) (file : File) (depth : Int) (st : StatState) (children : List File)
    (hdir : file.isDir = true) (hdepth : depth ≠ 0)
    (hrender : (statRender env opts rel file st).2 = none)
    (hdrain : drainPages (env.findByParentId file.id opts.hidden) [] = Except.ok children) :
    (stat env opts fuel rel file depth st).2 = Except.ok () ∧
    (stat env opts (fuel + 1) rel file depth st).1 =
      (if opts.md5sum then sortByMd5Name children else children).foldl
        (fun acc child =>
          (stat env opts fuel (env.pathClean (rel ++ "/" ++ child.name)) child
            (if depth ≥ 1 then depth - 1 else depth) acc).1)
        (statRender env opts rel file st).1 := by
  rcases hsr : statRender env opts rel file st with ⟨st1, r2⟩
  rw [hsr] at hrender
  have hr2 : r2 = none := hrender
  subst hr2
  constructor
  · unfold stat
    rw [hsr]
    simp [hdepth, hdir, hdrain]
    cases fuel <;> simp
  · conv => lhs; unfold stat
    rw [hsr]
    simp [hdepth, hdir, hdrain]

/-- Witness for C4: a parent (depth budget 2) whose only child is a
container whose own stream errors, so the child recursion fails; the parent
still returns `ok`. -/
theorem c4_witness :
    (stat envChildFail optsCsv 1 "a" fileDir 2 { firstLine := true, log := [] }).2 =
      Except.ok () ∧
    (stat envChildFail optsCsv (1 + 1) "a" fileDir 2 { firstLine := true, log := [] }).1 =
      (if optsCsv.md5sum then sortByMd5Name [fileSubDir] else [fileSubDir]).foldl
        (fun acc child =>
          (stat envChildFail optsCsv 1 (envChildFail.pathClean ("a" ++ "/" ++ child.name)) child
            (if (2 : Int) ≥ 1 then 2 - 1 else 2) acc).1)
        (statRender envChildFail optsCsv "a" fileDir { firstLine := true, log := [] }).1 :=
  c4_childErrorsNotPropagated envChildFail optsCsv 1 "a" fileDir 2
    { firstLine := true, log := [] } [fileSubDir] rfl (by decide) rfl rfl

/-- Claim C5 counterexample: at depth budget 0 (and a non-container object),
`stat` does NOT always return successfully — in verbose mode a
permission-fetch failure is still returned, refuting the claim's "returns
successfully" at this concrete input. -/
theorem c5_counterexample :
    (stat envPermFail optsVerbose 1 "b" fileLeaf 0 { firstLine := true, log := [] }).2 =
      Except.error { msg := "perm fetch failed", code := 500 } ∧
    (stat envPermFail optsVerbose 1 "b" fileLeaf 0 { firstLine := true, log := [] }).2 ≠
      Except.ok () :=
  ⟨rfl, fun h => Except.noConfusion h⟩

/-- Claim C5 (amended): if the depth budget is 0 or the object is not a
container, `stat` renders only that object and performs no child listing and
no recursion — the whole call equals the rendering step, for every fuel and
every environment — and it returns successfully provided the rendering step
itself did not fail (in verbose mode a permission-fetch error is still
returned). -/
theorem c5_noRecursionAtDepthZero (env : Env) (opts : Options) (fuel : Nat)
    (rel : String) (file : File) (depth : Int) (st : StatState)
    (h : depth = 0 ∨ file.isDir = false) :
    stat env opts fuel rel file depth st =
      ((statRender env opts rel file st).1,
       match (statRender env opts rel file st).2 with
       | some e => Except.error e
       | none => Except.ok ()) := by
  rcases hsr : statRender env opts rel file st with ⟨st1, r2⟩
  unfold stat
  rw [hsr]
  cases r2 with
  | some e => rfl
  | none =>
    rcases h with h | h
    · simp [h]
    · by_cases hd : depth = 0 <;> simp [hd, h]

/-- Witness for C5 at a concrete container with children and depth budget 0:
the call equals the rendering step alone. -/
theorem c5_witness :
    stat envNoPerm optsMd5 1 "a" fileDir 0 { firstLine := true, log := [] } =
      ((statRender envNoPerm optsMd5 "a" fileDir { firstLine := true, log := [] }).1,
       match (statRender envNoPerm optsMd5 "a" fileDir { firstLine := true, log := [] }).2 with
       | some e => Except.error e
       | none => Except.ok ()) :=
  c5_noRecursionAtDepthZero envNoPerm optsMd5 1 "a" fileDir 0
    { firstLine := true, log := [] } (Or.inl rfl)

/-- A concrete non-container whose checksum is shorter than the fixed width. -/
def fileShortSum : File :=
  { fileLeaf with
    md5Checksum := "abc" }

/-- The checksum line exactly as claim C3 words it: the checksum rendered
fixed-width and RIGHT-padded, then two spaces, then the path with any single
leading separator removed. -/
def c3ClaimedLine (file : File) (rel : String) : String :=
  goPadRight file.md5Checksum 32 ++ "  " ++ goTrimLeading rel "/" ++ "\n"

/-- Claim C3 counterexample: for the checksum `abc` (shorter than the fixed
width 32) the code pads on the LEFT (Go `%32s` right-justifies), so the
emitted line differs from the right-padded line the claim describes. -/
theorem c3_counterexample :
    (statRender envNoPerm optsMd5 "/p" fileShortSum { firstLine := true, log := [] }).1.log ≠
      [c3ClaimedLine fileShortSum "/p"] ∧
    (statRender envNoPerm optsMd5 "/p" fileShortSum { firstLine := true, log := [] }).1.log =
      [goPadLeft "abc" 32 ++ "  p\n"] := by
  constructor
  · decide
  · decide

/-- Claim C3 (amended): in checksum mode, an object with a non-empty
checksum emits exactly one line — the checksum rendered LEFT-padded
(right-aligned) to the minimum width 32, two spaces, and the path with any
single leading separator removed — and an object with an empty checksum
emits nothing. -/
theorem c3_checksumLineFormat (env : Env) (opts : Options) (rel : String)
    (file : File) (st : StatState) (hm : opts.md5sum = true) :
    (file.md5Checksum ≠ "" →
      (statRender env opts rel file st).1.log =
        st.log ++ [goPadLeft file.md5Checksum 32 ++ "  " ++ goTrimLeading rel "/" ++ "\n"]) ∧
    (file.md5Checksum = "" → (statRender env opts rel file st).1.log = st.log) := by
  unfold statRender
  by_cases hc : file.md5Checksum = "" <;> simp [hm, hc]

/-- Witness for C3 at the checksum `deadbeef` and the path `/p`. -/
theorem c3_witness :
    (statRender envNoPerm optsMd5 "/p" fileLeaf { firstLine := true, log := [] }).1.log =
      (StatState.mk true []).log ++
        [goPadLeft fileLeaf.md5Checksum 32 ++ "  " ++ goTrimLeading "/p" "/" ++ "\n"] :=
  (c3_checksumLineFormat envNoPerm optsMd5 "/p" fileLeaf { firstLine := true, log := [] }
    rfl).1 (by decide)

/-- Claim C8: for every container — which per the data model carries no
checksum — the rendered report contains no `Md5Checksum` row and no
`Copyable` row in the verbose metadata block, and checksum mode emits no
line for it. -/
theorem c8_containerNoChecksumRows (env : Env) (opts : Options) (rel : String)
    (file : File) (st : StatState)
    (hdir : file.isDir = true) (hsum : file.md5Checksum = "")
    (hm : opts.md5sum = true) :
    ("Md5Checksum" ∉ (prettyFileStatKV env file).map Prod.fst) ∧
    ("Copyable" ∉ (prettyFileStatKV env file).map Prod.fst) ∧
    (statRender env opts rel file st).1.log = st.log := by
  refine ⟨?_, ?_, ?_⟩
  · simp [prettyFileStatKV, hdir]
    split <;> simp_all
  · simp [prettyFileStatKV, hdir]
    split <;> simp_all
  · unfold statRender
    simp [hm, hsum]

/-- Witness for C8 at the concrete container `fileDir`. -/
theorem c8_witness :
    ("Md5Checksum" ∉ (prettyFileStatKV envNoPerm fileDir).map Prod.fst) ∧
    ("Copyable" ∉ (prettyFileStatKV envNoPerm fileDir).map Prod.fst) ∧
    (statRender envNoPerm optsMd5 "a" fileDir { firstLine := true, log := [] }).1.log =
      (StatState.mk true []).log :=
  c8_containerNoChecksumRows envNoPerm optsMd5 "a" fileDir
    { firstLine := true, log := [] } rfl rfl rfl

/-- The objects delivered on the data channel, in delivery order. -/
def streamData (evs : List StreamEvent) : List File :=
  evs.filterMap (fun ev =>
    match ev with
    | StreamEvent.data f => some f
    | StreamEvent.errs _ => none)

/-- A successful drain collects exactly the data deliveries, in order. -/
theorem drainPages_ok_order :
    ∀ (evs : List StreamEvent) (acc out : List File),
      drainPages evs acc = Except.ok out → out = acc ++ streamData evs := by
  intro evs
  induction evs with
  | nil =>
    intro acc out h
    simp [drainPages] at h
    simp [streamData, ← h]
  | cons ev rest ih =>
    intro acc out h
    cases ev with
    | data f =>
      have h1 := ih (acc ++ [f]) out (by simpa [drainPages] using h)
      simp [streamData, List.filterMap_cons] at h1 ⊢
      simp [h1]
    | errs e =>
      cases e with
      | none =>
        have h1 := ih acc out (by simpa [drainPages] using h)
        simpa [streamData, List.filterMap_cons] using h1
      | some err => simp [drainPages] at h

/-- `md5NameLe` is transitive. -/
theorem md5NameLe_trans (a b c : File) (hab : md5NameLe a b) (hbc : md5NameLe b c) :
    md5NameLe a c := by
  simp only [md5NameLe, Bool.or_eq_true, Bool.and_eq_true, decide_eq_true_eq,
    beq_iff_eq] at hab hbc ⊢
  rcases hab with h1 | ⟨h1, h1n⟩ <;> rcases hbc with h2 | ⟨h2, h2n⟩
  · exact Or.inl (lt_trans h1 h2)
  · exact Or.inl (h2 ▸ h1)
  · exact Or.inl (h1 ▸ h2)
  · exact Or.inr ⟨h1.trans h2, le_trans h1n h2n⟩

/-- `md5NameLe` is total. -/
theorem md5NameLe_total (a b : File) : md5NameLe a b || md5NameLe b a := by
  simp only [md5NameLe, Bool.or_eq_true, Bool.and_eq_true, decide_eq_true_eq, beq_iff_eq]
  rcases lt_trichotomy a.md5Checksum b.md5Checksum with h | h | h
  · exact Or.inl (Or.inl h)
  · rcases le_total a.name b.name with hn | hn
    · exact Or.inl (Or.inr ⟨h, hn⟩)
    · exact Or.inr (Or.inr ⟨h.symm, hn⟩)
  · exact Or.inr (Or.inl h)

/-- Claim C7: the consumer never reorders the stream while collecting (a
successful drain returns the data deliveries in order); after full
collection the children are recursed into in exactly the collected order in
every non-checksum mode; and in checksum mode (and only then) the recursion
order is the collected children sorted by checksum value first and name
second (a permutation of the collected children, pairwise ordered by the
key, empty checksums ordering before non-empty ones under the string
order). -/
theorem c7_sortOnlyInChecksumMode (env : Env) (opts : Options) (fuel : Nat)
    (rel : String) (file : File) (depth : Int) (st : StatState)
    (evs : List StreamEvent) (acc out : List File) (cs : List File)
    (hdrainEvents : drainPages evs acc = Except.ok out)
    (hdir : file.isDir = true) (hdepth : depth ≠ 0)
    (hrender : (statRender env opts rel file st).2 = none)
    (hdrain : drainPages (env.findByParentId file.id opts.hidden) [] = Except.ok cs) :
    out = acc ++ streamData evs ∧
    (opts.md5sum = false →
      (stat env opts (fuel + 1) rel file depth st).1 =
        cs.foldl (fun accSt child =>
          (stat env opts fuel (env.pathClean (rel ++ "/" ++ child.name)) child
            (if depth ≥ 1 then depth - 1 else depth) accSt).1)
          (statRender env opts rel file st).1) ∧
    (opts.md5sum = true →
      (stat env opts (fuel + 1) rel file depth st).1 =
        (sortByMd5Name cs).foldl (fun accSt child =>
          (stat env opts fuel (env.pathClean (rel ++ "/" ++ child.name)) child
            (if depth ≥ 1 then depth - 1 else depth) accSt).1)
          (statRender env opts rel file st).1) ∧
    (sortByMd5Name cs).Perm cs ∧
    (sortByMd5Name cs).Pairwise (fun a b => md5NameLe a b = true) := by
  have hfold := (c4_childErrorsNotPropagated env opts fuel rel file depth st cs
    hdir hdepth hrender hdrain).2
  refine ⟨drainPages_ok_order _ _ _ hdrainEvents, ?_, ?_, ?_, ?_⟩
  · intro hm; rw [hfold, hm]; simp
  · intro hm; rw [hfold, hm]; simp
  · exact List.mergeSort_perm cs md5NameLe
  · exact List.sorted_mergeSort md5NameLe_trans (by intro a b; simpa using md5NameLe_total a b) cs

/-- Children realizing the spec example: checksums `b`, (empty), `a` with
names `x`, `y`, `z`. -/
def fileSumB : File :=
  { fileLeaf with
    name := "x", id := "idx", originalFilename := "x", md5Checksum := "b" }

/-- The empty-checksum child of the spec sorting example. -/
def fileSumE : File :=
  { fileLeaf with
    name := "y", id := "idy", originalFilename := "y", md5Checksum := "" }

/-- The checksum-`a` child of the spec sorting example. -/
def fileSumA : File :=
  { fileLeaf with
    name := "z", id := "idz", originalFilename := "z", md5Checksum := "a" }

/-- An environment delivering the three example children in order. -/
def envSortDemo : Env :=
  { envNoPerm with
    findByParentId := fun _ _ =>
      [StreamEvent.data fileSumB, StreamEvent.data fileSumE, StreamEvent.data fileSumA] }

/-- Witness for C7 on the spec example: the drain keeps delivery order, and
the checksum-mode recursion order is the checksum-then-name sort of the
collected children (a permutation, pairwise ordered by the key). -/
theorem c7_witness :
    [fileSumB, fileSumE, fileSumA] =
      [] ++ streamData [StreamEvent.data fileSumB, StreamEvent.data fileSumE,
        StreamEvent.data fileSumA] ∧
    (stat envSortDemo optsMd5 (0 + 1) "a" fileDir 1 { firstLine := true, log := [] }).1 =
      (sortByMd5Name [fileSumB, fileSumE, fileSumA]).foldl (fun accSt child =>
        (stat envSortDemo optsMd5 0 (envSortDemo.pathClean ("a" ++ "/" ++ child.name)) child
          (if (1 : Int) ≥ 1 then 1 - 1 else 1) accSt).1)
        (statRender envSortDemo optsMd5 "a" fileDir { firstLine := true, log := [] }).1 ∧
    (sortByMd5Name [fileSumB, fileSumE, fileSumA]).Perm [fileSumB, fileSumE, fileSumA] ∧
    (sortByMd5Name [fileSumB, fileSumE, fileSumA]).Pairwise
      (fun a b => md5NameLe a b = true) := by
  have h := c7_sortOnlyInChecksumMode envSortDemo optsMd5 0 "a" fileDir 1
    { firstLine := true, log := [] }
    [StreamEvent.data fileSumB, StreamEvent.data fileSumE, StreamEvent.data fileSumA]
    [] [fileSumB, fileSumE, fileSumA] [fileSumB, fileSumE, fileSumA]
    rfl rfl (by decide) rfl rfl
  exact ⟨h.1, h.2.2.1 rfl, h.2.2.2.1, h.2.2.2.2⟩

/-- A concrete permission entry. -/
def permA : Permission :=
  { name := "alice", emailAddress := "alice@example.com", role := "reader", typ := "user" }

/-- An environment returning exactly one permission entry. -/
def envOnePerm : Env :=
  { envNoPerm with
    listPermissions := fun _ => ([permA], none) }

/-- The CSV row exactly as claim C9 words it: the six fields in order,
comma-separated, the object fields left-padded to their fixed widths, and
nothing else between the fields. -/
def c9ClaimedRow (perm : Permission) (file : File) : String :=
  goPadLeft file.name 60 ++ "," ++
    goPadLeft (if file.isDir then "folder" else "file") 10 ++ "," ++
    goPadLeft perm.name 25 ++ "," ++ goPadLeft perm.emailAddress 25 ++ "," ++
    goPadLeft perm.role 25 ++ "," ++ goPadLeft perm.typ 25 ++ "\n"

/-- Claim C9 counterexample: the emitted row is not the claimed
comma-separated row — the code inserts two tab characters after the padded
contact address (no tab occurs in any claimed row), and pads the fields on
the right (Go `%-Nv` left-justifies), not on the left. -/
theorem c9_counterexample :
    String.join (prettyFilePermission permA fileLeaf) ≠ c9ClaimedRow permA fileLeaf ∧
    Char.ofNat 9 ∈ (String.join (prettyFilePermission permA fileLeaf)).data ∧
    Char.ofNat 9 ∉ (c9ClaimedRow permA fileLeaf).data := by
  refine ⟨by decide, by decide, by decide⟩

/-- Claim C9 (amended): in CSV mode, exactly one row is emitted per
PermissionEntry, in permission order, consisting of the object name, the
`file`/`folder` tag, the permission display name and contact address —
each RIGHT-padded (left-justified) to its minimum width and
comma-separated — then two tab characters, then a comma and the padded
role, a comma and the padded account type, and a final newline (the four
`logf` chunks of one row). -/
theorem c9_csvRowFormat (env : Env) (opts : Options) (rel : String) (file : File)
    (st : StatState) (hm : opts.md5sum = false) (hc : opts.csvOutput = true) :
    (statRender env opts rel file st).1.log =
      st.log ++ (if st.firstLine then [csvHeaderLine] else []) ++
        ((env.listPermissions file.id).1.map (fun perm =>
          [goPadRight file.name 60 ++ "," ++
             goPadRight (if file.isDir then "folder" else "file") 10 ++ "," ++
             goPadRight perm.name 25 ++ "," ++ goPadRight perm.emailAddress 25 ++
             "\t\t",
           "," ++ goPadRight perm.role 25,
           "," ++ goPadRight perm.typ 25,
           "\n"])).flatten := by
  unfold statRender prettyFilePermission
  by_cases hf : st.firstLine <;> simp [hm, hc, hf]

/-- Witness for C9 at one concrete permission in CSV mode. -/
theorem c9_witness :
    (statRender envOnePerm optsCsv "a" fileLeaf { firstLine := true, log := [] }).1.log =
      (StatState.mk true []).log ++
        (if (StatState.mk true []).firstLine then [csvHeaderLine] else []) ++
        (((envOnePerm.listPermissions fileLeaf.id).1.map (fun perm =>
          [goPadRight fileLeaf.name 60 ++ "," ++
             goPadRight (if fileLeaf.isDir then "folder" else "file") 10 ++ "," ++
             goPadRight perm.name 25 ++ "," ++ goPadRight perm.emailAddress 25 ++
             "\t\t",
           "," ++ goPadRight perm.role 25,
           "," ++ goPadRight perm.typ 25,
           "\n"]))).flatten :=
  c9_csvRowFormat envOnePerm optsCsv "a" fileLeaf { firstLine := true, log := [] } rfl rfl

/-- Claim C10: in checksum mode, a successfully resolved single source is
traversed with the resolved object's display name as the top-level path
(never the caller-supplied source string), and with the empty string when
the object is a container and the configured root path is root-like; the
whole `statfn` call reduces to that one `stat` call (plus the error
bookkeeping on its result, which also uses the replaced path in the failure
message). -/
theorem c10_md5TargetPath (env : Env) (opts : Options) (fname : String)
    (fn : String → Except SourceError File) (fuel : Nat) (st : StatState)
    (src : String) (f : File)
    (hm : opts.md5sum = true) (hres : fn src = Except.ok f)
    (hsrc : opts.sources = [src]) :
    statfn env opts fname fn fuel st =
      (match stat env opts fuel
          (if f.isDir && env.rootLike opts.path then "" else f.name) f opts.depth st with
       | (st1, Except.error e) =>
         (st1, copyErrStatusCode (reComposeError none
            (statMsg fname (if f.isDir && env.rootLike opts.path then "" else f.name) e)) e)
       | (st1, Except.ok _) => (st1, none)) := by
  unfold statfn
  rw [hsrc]
  unfold statfnGo
  rw [hres]
  simp only [hm, if_true]
  rcases h : stat env opts fuel
      (if f.isDir && env.rootLike opts.path then "" else f.name) f opts.depth st with ⟨st1, r⟩
  cases r with
  | error e => simp [statfnGo]
  | ok u => simp [statfnGo]

/-- An environment where the configured path is root-like. -/
def envRootLike : Env :=
  { envNoPerm with
    rootLike := fun _ => true }

/-- Witness for C10: a container resolved at a root-like path in checksum
mode is traversed with the empty path. -/
theorem c10_witness :
    statfn envRootLike optsMd5 "stat" (fun _ => Except.ok fileDir) 1
        { firstLine := true, log := [] } =
      (match stat envRootLike optsMd5 1
          (if fileDir.isDir && envRootLike.rootLike optsMd5.path then "" else fileDir.name)
          fileDir optsMd5.depth { firstLine := true, log := [] } with
       | (st1, Except.error e) =>
         (st1, copyErrStatusCode (reComposeError none
            (statMsg "stat"
              (if fileDir.isDir && envRootLike.rootLike optsMd5.path then "" else fileDir.name)
              e)) e)
       | (st1, Except.ok _) => (st1, none)) :=
  c10_md5TargetPath envRootLike optsMd5 "stat" (fun _ => Except.ok fileDir) 1
    { firstLine := true, log := [] } "a" fileDir rfl rfl rfl

/-- The error component of `stat` does not depend on the incoming state:
renders only accumulate into the log, and child errors are discarded. -/
theorem stat_snd_st (env : Env) (opts : Options) (fuel : Nat) (rel : String)
    (file : File) (depth : Int) (st st1 : StatState) :
    (stat env opts fuel rel file depth st).2 = (stat env opts fuel rel file depth st1).2 := by
  rcases h : statRender env opts rel file st with ⟨a, r⟩
  rcases h1 : statRender env opts rel file st1 with ⟨a1, r1⟩
  have hr : r = r1 := by
    have e0 := statRender_snd env opts rel file st
    have e1 := statRender_snd env opts rel file st1
    rw [h] at e0
    rw [h1] at e1
    exact e0.trans e1.symm
  subst hr
  unfold stat
  rw [h, h1]
  cases r with
  | some e => rfl
  | none =>
    by_cases hd : depth = 0
    · simp [hd]
    · by_cases hdir : file.isDir = false
      · simp [hd, hdir]
      · simp only [hd, hdir]
        rcases drainPages (env.findByParentId file.id opts.hidden) [] with e | rc
        · simp
        · simp
          cases fuel <;> simp

/-- The per-source outcome of the `statfn` loop: `none` when the source
resolves and its traversal returns no error; otherwise the failure message
(built with the possibly replaced source string) and the underlying error. -/
def sourceOutcome (env : Env) (opts : Options) (fname : String)
    (fn : String → Except SourceError File) (fuel : Nat) (src : String) :
    Option (String × SourceError) :=
  match fn src with
  | Except.error fErr => some (statMsg fname src fErr, fErr)
  | Except.ok f =>
    let src1 := if opts.md5sum then
        (if f.isDir && env.rootLike opts.path then "" else f.name)
      else src
    match (stat env opts fuel src1 f opts.depth { firstLine := true, log := [] }).2 with
    | Except.error fErr => some (statMsg fname src1 fErr, fErr)
    | Except.ok _ => none

/-- The state evolution of the `statfn` loop: failures change nothing, and
every successfully resolved source is processed by `stat` in order. -/
def statfnStates (env : Env) (opts : Options) (fname : String)
    (fn : String → Except SourceError File) (fuel : Nat) :
    List String → StatState → StatState
  | [], st => st
  | src :: rest, st =>
    match fn src with
    | Except.error _ => statfnStates env opts fname fn fuel rest st
    | Except.ok f =>
      let src1 := if opts.md5sum then
          (if f.isDir && env.rootLike opts.path then "" else f.name)
        else src
      statfnStates env opts fname fn fuel rest (stat env opts fuel src1 f opts.depth st).1

/-- The aggregate claim C2 predicts from the failures, in order: every
message kept, the status code of the most recent failure retained. -/
def aggregateOutcomes : List (String × SourceError) → Option AggErr
  | [] => none
  | fs => some { msgs := fs.map Prod.fst,
                 code := ((fs.getLast?).map (fun p => p.2.code)).getD 0 }

/-- One recompose/copy step on an existing aggregate. -/
theorem errStep_some (a : AggErr) (p : String × SourceError) :
    copyErrStatusCode (reComposeError (some a) p.1) p.2 =
      some { msgs := a.msgs ++ [p.1], code := p.2.code } := rfl

/-- One recompose/copy step on an empty aggregate. -/
theorem errStep_none (p : String × SourceError) :
    copyErrStatusCode (reComposeError none p.1) p.2 =
      some { msgs := [p.1], code := p.2.code } := rfl

/-- Folding the spec-modelled recompose/copy steps from an existing
aggregate appends all messages and retains the last code. -/
theorem errFold_some (fs : List (String × SourceError)) :
    ∀ (a : AggErr),
      fs.foldl (fun e p => copyErrStatusCode (reComposeError e p.1) p.2) (some a) =
        some { msgs := a.msgs ++ fs.map Prod.fst,
               code := ((fs.getLast?).map (fun p => p.2.code)).getD a.code } := by
  induction fs with
  | nil => intro a; simp
  | cons p rest ih =>
    intro a
    rw [List.foldl_cons, errStep_some, ih]
    cases rest with
    | nil => simp
    | cons q rest1 =>
      rcases hlast : (q :: rest1).getLast? with _ | x
      · exact absurd hlast (by simp)
      · simp [List.getLast?_cons_cons, hlast]

/-- Folding the recompose/copy steps from `none` yields exactly the
predicted aggregate. -/
theorem errFold_aggregate (fs : List (String × SourceError)) :
    fs.foldl (fun e p => copyErrStatusCode (reComposeError e p.1) p.2) none =
      aggregateOutcomes fs := by
  cases fs with
  | nil => rfl
  | cons p rest =>
    rw [List.foldl_cons, errStep_none, errFold_some]
    show _ = aggregateOutcomes (p :: rest)
    cases rest with
    | nil => simp [aggregateOutcomes]
    | cons q rest1 =>
      rcases hlast : (q :: rest1).getLast? with _ | x
      · exact absurd hlast (by simp)
      · simp [aggregateOutcomes, List.getLast?_cons_cons, hlast]

/-- The `statfn` loop equals the split description: states evolve through
every successful source; errors fold over the per-source outcomes. -/
theorem statfnGo_spec (env : Env) (opts : Options) (fname : String)
    (fn : String → Except SourceError File) (fuel : Nat) :
    ∀ (sources : List String) (st : StatState) (err : Option AggErr),
      statfnGo env opts fname fn fuel sources st err =
        (statfnStates env opts fname fn fuel sources st,
         (sources.filterMap (sourceOutcome env opts fname fn fuel)).foldl
           (fun e p => copyErrStatusCode (reComposeError e p.1) p.2) err) := by
  intro sources
  induction sources with
  | nil => intro st err; rfl
  | cons src rest ih =>
    intro st err
    unfold statfnGo statfnStates
    cases hres : fn src with
    | error fErr =>
      rw [List.filterMap_cons]
      simp only [sourceOutcome, hres]
      rw [ih]
      simp
    | ok f =>
      rw [List.filterMap_cons]
      simp only [sourceOutcome, hres]
      rcases hst : stat env opts fuel
          (if opts.md5sum then (if f.isDir && env.rootLike opts.path then "" else f.name)
           else src) f opts.depth st with ⟨st2, r⟩
      have hsnd : (stat env opts fuel
          (if opts.md5sum then (if f.isDir && env.rootLike opts.path then "" else f.name)
           else src) f opts.depth { firstLine := true, log := [] }).2 = r := by
        rw [stat_snd_st env opts fuel _ f opts.depth { firstLine := true, log := [] } st, hst]
      rw [hsnd]
      cases r with
      | error fErr => simp [ih]
      | ok u => simp [ih]

/-- Claim C2: the top-level loop attempts every source even when earlier
ones fail; each failure (resolution or traversal) contributes exactly its
message, in order, to a single aggregate (none overwritten or discarded);
the retained status code is that of the most recent failure; and all
successfully resolved sources are still processed by `stat` in order
(`statfnStates` applies `stat` to every resolved source, skipping only the
failed resolutions). -/
theorem c2_aggregatesAllFailures (env : Env) (opts : Options) (fname : String)
    (fn : String → Except SourceError File) (fuel : Nat) (st : StatState) :
    statfn env opts fname fn fuel st =
      (statfnStates env opts fname fn fuel opts.sources st,
       aggregateOutcomes (opts.sources.filterMap (sourceOutcome env opts fname fn fuel))) := by
  unfold statfn
  rw [statfnGo_spec, errFold_aggregate]

/-- Right-padding reaches at least the requested width. -/
theorem goPadRight_length (s : String) (w : Nat) : w ≤ (goPadRight s w).length := by
  unfold goPadRight
  simp [String.length_append]
  omega

/-- The number of header lines in a log. -/
def countHeader (l : List String) : Nat := l.count csvHeaderLine

/-- No chunk of a CSV data row equals the header line: the first chunk is
at least 125 characters long while the header has 48, the role and
account-type chunks start with a comma, and the final chunk is a lone
newline. -/
theorem csvHeader_notMem_row (perm : Permission) (file : File) :
    csvHeaderLine ∉ prettyFilePermission perm file := by
  intro hmem
  unfold prettyFilePermission at hmem
  simp only [List.mem_cons, List.not_mem_nil, or_false] at hmem
  have hl : csvHeaderLine.length = 48 := by decide
  have hF : csvHeaderLine.data.head? = some 'F' := by decide
  rcases hmem with h | h | h | h
  · have h1 := congrArg String.length h
    have b1 := goPadRight_length file.name 60
    have b2 := goPadRight_length (if file.isDir then "folder" else "file") 10
    have b3 := goPadRight_length perm.name 25
    have b4 := goPadRight_length perm.emailAddress 25
    rw [hl] at h1
    simp only [String.length_append,
      show String.length "," = 1 from rfl,
      show String.length "\t\t" = 2 from rfl] at h1
    omega
  · have h1 : csvHeaderLine.data.head? = (("," ++ goPadRight perm.role 25).data).head? :=
      congrArg (fun s => s.data.head?) h
    rw [String.data_append] at h1
    rw [hF] at h1
    simp at h1
  · have h1 : csvHeaderLine.data.head? = (("," ++ goPadRight perm.typ 25).data).head? :=
      congrArg (fun s => s.data.head?) h
    rw [String.data_append] at h1
    rw [hF] at h1
    simp at h1
  · exact absurd h (by decide)

/-- A flattened list of CSV rows contains no header line. -/
theorem countHeader_rows (perms : List Permission) (file : File) :
    countHeader ((perms.map (fun p => prettyFilePermission p file)).flatten) = 0 := by
  rw [countHeader, List.count_eq_zero]
  intro hmem
  rw [List.mem_flatten] at hmem
  rcases hmem with ⟨l, hl, hmem⟩
  rw [List.mem_map] at hl
  rcases hl with ⟨p, _, rfl⟩
  exact csvHeader_notMem_row p file hmem

/-- In CSV mode one rendering step emits the header exactly when the
`firstLine` flag was set, and nothing else it emits is a header line. -/
theorem statRender_csv_count (env : Env) (opts : Options) (rel : String)
    (file : File) (st : StatState) (hm : opts.md5sum = false) (hc : opts.csvOutput = true) :
    countHeader (statRender env opts rel file st).1.log =
      countHeader st.log + (if st.firstLine then 1 else 0) := by
  unfold statRender
  have hzero := countHeader_rows (env.listPermissions file.id).1 file
  rw [countHeader] at hzero
  by_cases hf : st.firstLine <;>
    simp [hm, hc, hf, countHeader, List.count_append, hzero]

/-- With no fuel the embedding performs no recursion: the state is that of
the rendering step alone. -/
theorem stat_fst_fuelZero (env : Env) (opts : Options) (rel : String) (file : File)
    (depth : Int) (st : StatState) :
    (stat env opts 0 rel file depth st).1 = (statRender env opts rel file st).1 := by
  rcases h : statRender env opts rel file st with ⟨st1, r⟩
  unfold stat
  rw [h]
  cases r with
  | some e => rfl
  | none =>
    by_cases hd : depth = 0
    · simp [hd]
    · by_cases hdir : file.isDir = false
      · simp [hd, hdir]
      · simp only [hd, hdir]
        rcases drainPages (env.findByParentId file.id opts.hidden) [] with e | rc <;> simp

/-- In CSV mode an entire `stat` traversal (any fuel, any depth) leaves the
`firstLine` flag cleared and emits the header exactly once if the flag was
set on entry and never otherwise. -/
theorem stat_csv_headerCount (env : Env) (opts : Options)
    (hm : opts.md5sum = false) (hc : opts.csvOutput = true) :
    ∀ (fuel : Nat) (rel : String) (file : File) (depth : Int) (st : StatState),
      (stat env opts fuel rel file depth st).1.firstLine = false ∧
      countHeader (stat env opts fuel rel file depth st).1.log =
        countHeader st.log + (if st.firstLine then 1 else 0) := by
  intro fuel
  induction fuel with
  | zero =>
    intro rel file depth st
    rw [stat_fst_fuelZero]
    exact ⟨statRender_firstLine_csv env opts rel file st hm hc,
           statRender_csv_count env opts rel file st hm hc⟩
  | succ fuel1 ih =>
    intro rel file depth st
    rcases hsr : statRender env opts rel file st with ⟨st1, r⟩
    have hr : r = none := by
      have e0 := statRender_snd env opts rel file st
      rw [hsr] at e0
      simpa [hm, hc] using e0
    subst hr
    have hfl : st1.firstLine = false := by
      have h1 := statRender_firstLine_csv env opts rel file st hm hc
      rwa [hsr] at h1
    have hcnt : countHeader st1.log = countHeader st.log + (if st.firstLine then 1 else 0) := by
      have h1 := statRender_csv_count env opts rel file st hm hc
      rwa [hsr] at h1
    unfold stat
    rw [hsr]
    by_cases hd : depth = 0
    · simpa [hd] using ⟨hfl, hcnt⟩
    · by_cases hdir : file.isDir = false
      · simpa [hd, hdir] using ⟨hfl, hcnt⟩
      · simp only [hd, hdir]
        rcases drainPages (env.findByParentId file.id opts.hidden) [] with e | rc
        · simpa using ⟨hfl, hcnt⟩
        · have haux : ∀ (l : List File) (d : Int) (s0 : StatState),
              s0.firstLine = false →
              (l.foldl (fun acc child =>
                (stat env opts fuel1 (env.pathClean (rel ++ "/" ++ child.name)) child d acc).1)
                s0).firstLine = false ∧
              countHeader (l.foldl (fun acc child =>
                (stat env opts fuel1 (env.pathClean (rel ++ "/" ++ child.name)) child d acc).1)
                s0).log = countHeader s0.log := by
            intro l
            induction l with
            | nil => intro d s0 h0; exact ⟨h0, rfl⟩
            | cons cf restl ihl =>
              intro d s0 h0
              rw [List.foldl_cons]
              rcases ih (env.pathClean (rel ++ "/" ++ cf.name)) cf d s0 with ⟨hf1, hc1⟩
              rcases ihl d _ hf1 with ⟨hf2, hc2⟩
              refine ⟨hf2, ?_⟩
              rw [hc2, hc1, h0]
              simp
          have hm1 : (if opts.md5sum then sortByMd5Name rc else rc) = rc := by simp [hm]
          rcases haux (if opts.md5sum then sortByMd5Name rc else rc)
              (if depth ≥ 1 then depth - 1 else depth) st1 hfl with ⟨hf3, hc3⟩
          exact ⟨by simpa using hf3, by simpa using hc3.trans hcnt⟩

/-- One `stat` invocation in the lifetime of a process: its environment,
options, fuel, starting path, object and depth budget. -/
structure StatCall where
  env : Env
  opts : Options
  fuel : Nat
  rel : String
  file : File
  depth : Int

/-- A sequence of `stat` invocations in one process: the `firstLine` flag
and the log persist across invocations (the flag is a package-level
variable in the source). -/
def runStatCalls : List StatCall → StatState → StatState
  | [], st => st
  | c :: rest, st => runStatCalls rest (stat c.env c.opts c.fuel c.rel c.file c.depth st).1

/-- Across any sequence of CSV-mode invocations the header count rises by
one exactly when the flag was set and the sequence is non-empty, and the
flag is cleared unless the sequence is empty. -/
theorem runStatCalls_spec (calls : List StatCall)
    (hcsv : ∀ c ∈ calls, c.opts.md5sum = false ∧ c.opts.csvOutput = true) :
    ∀ st : StatState,
      countHeader (runStatCalls calls st).log =
        countHeader st.log + (if st.firstLine && !calls.isEmpty then 1 else 0) ∧
      (runStatCalls calls st).firstLine = (st.firstLine && calls.isEmpty) := by
  induction calls with
  | nil => intro st; simp [runStatCalls]
  | cons c rest ih =>
    intro st
    rcases hcsv c (List.mem_cons_self c rest) with ⟨hm, hc⟩
    have hstep := stat_csv_headerCount c.env c.opts hm hc c.fuel c.rel c.file c.depth st
    rcases hstep with ⟨hf1, hc1⟩
    have hrest := ih (fun d hd => hcsv d (List.mem_cons_of_mem c hd))
      (stat c.env c.opts c.fuel c.rel c.file c.depth st).1
    rcases hrest with ⟨hc2, hf2⟩
    rw [runStatCalls] at *
    constructor
    · rw [hc2, hc1, hf1]
      by_cases hsf : st.firstLine <;> simp [hsf]
    · rw [hf2, hf1]
      simp

/-- Claim C6: in CSV mode the header row is emitted exactly once per
process lifetime — starting from the process-initial state (flag set, empty
log), any non-empty sequence of CSV invocations produces exactly one header
line in the whole log, the flag ends cleared, and from any state whose flag
is already cleared no further invocation ever emits another header. -/
theorem c6_csvHeaderOnce (calls : List StatCall)
    (hcsv : ∀ c ∈ calls, c.opts.md5sum = false ∧ c.opts.csvOutput = true)
    (hne : calls ≠ []) :
    countHeader (runStatCalls calls { firstLine := true, log := [] }).log = 1 ∧
    (runStatCalls calls { firstLine := true, log := [] }).firstLine = false ∧
    (∀ st : StatState, st.firstLine = false →
      countHeader (runStatCalls calls st).log = countHeader st.log ∧
      (runStatCalls calls st).firstLine = false) := by
  refine ⟨?_, ?_, ?_⟩
  · rcases runStatCalls_spec calls hcsv { firstLine := true, log := [] } with ⟨h1, _⟩
    rw [h1]
    have hemp : calls.isEmpty = false := by
      cases calls with
      | nil => exact absurd rfl hne
      | cons c rest => rfl
    simp [countHeader, hemp]
  · rcases runStatCalls_spec calls hcsv { firstLine := true, log := [] } with ⟨_, h2⟩
    rw [h2]
    have hemp : calls.isEmpty = false := by
      cases calls with
      | nil => exact absurd rfl hne
      | cons c rest => rfl
    simp [hemp]
  · intro st hst
    rcases runStatCalls_spec calls hcsv st with ⟨h1, h2⟩
    constructor
    · rw [h1]
      simp [hst]
    · rw [h2, hst]
      simp

/-- Witness for C6: two consecutive CSV invocations (a traversal of a
container with one child, then a second invocation on a single file) emit
the header exactly once. -/
theorem c6_witness :
    countHeader (runStatCalls
      [StatCall.mk envOnePerm optsCsv 2 "a" fileDir 1,
       StatCall.mk envOnePerm optsCsv 2 "b" fileLeaf 1]
      { firstLine := true, log := [] }).log = 1 ∧
    (runStatCalls
      [StatCall.mk envOnePerm optsCsv 2 "a" fileDir 1,
       StatCall.mk envOnePerm optsCsv 2 "b" fileLeaf 1]
      { firstLine := true, log := [] }).firstLine = false ∧
    (∀ st : StatState, st.firstLine = false →
      countHeader (runStatCalls
        [StatCall.mk envOnePerm optsCsv 2 "a" fileDir 1,
         StatCall.mk envOnePerm optsCsv 2 "b" fileLeaf 1] st).log = countHeader st.log ∧
      (runStatCalls
        [StatCall.mk envOnePerm optsCsv 2 "a" fileDir 1,
         StatCall.mk envOnePerm optsCsv 2 "b" fileLeaf 1] st).firstLine = false) :=
  c6_csvHeaderOnce
    [StatCall.mk envOnePerm optsCsv 2 "a" fileDir 1,
     StatCall.mk envOnePerm optsCsv 2 "b" fileLeaf 1]
    (by
      intro c hc
      simp only [List.mem_cons, List.not_mem_nil, or_false] at hc
      rcases hc with rfl | rfl
      · exact ⟨rfl, rfl⟩
      · exact ⟨rfl, rfl⟩)
    (by simp)

end Drive

